import Mathlib

/-!
Shallow embedding of `src/progressor/progress.py` (a terminal progress-bar
renderer) together with proofs checking the natural-language specification
against it.

Modelling conventions:
* Python `float` values (progress fractions, timestamps, ETA, speed) are
  modelled as rationals `ℚ`; all arithmetic in the program is elementary,
  and every concrete value appearing in the claims is exactly representable.
* Python strings are modelled as `List Char`; writing to `sys.stdout` is
  modelled by returning the concatenation of everything written.
* Python `int(x)` truncates toward zero (`pyInt`); `//` and `%` on ints are
  floor division and its remainder (`Int.fdiv` / `Int.fmod`).
* The closure-captured mutable state (`last_update` / `last_value` for the
  speed tracker, the spinner frame cursor `i`) is passed explicitly and the
  new state is returned.
* `time.time()` is an injected `now : ℚ` parameter.
-/

namespace Progressor

/-- Python strings, modelled as lists of characters. -/
abbrev Str := List Char

/-- Python `int(x)` applied to a float: truncation toward zero. -/
def pyInt (q : ℚ) : ℤ := if q < 0 then ⌈q⌉ else ⌊q⌋

/-- Python `str.lower()` (the style names in play are ASCII). -/
def toLowerStr (s : Str) : Str := s.map Char.toLower

/-- The decimal digit character for `d < 10`. -/
def digitChar (d : ℕ) : Char := Char.ofNat (48 + d)

/-- Fuel-driven digit extraction; the fuel only bounds the recursion depth
and `natDigits` always supplies enough. -/
def natDigitsAux : ℕ → ℕ → List Char
  | 0, _ => []
  | fuel + 1, n =>
    if n < 10 then [digitChar n] else natDigitsAux fuel (n / 10) ++ [digitChar (n % 10)]

/-- Decimal digit string of a natural number, as Python `str(n)` renders it. -/
def natDigits (n : ℕ) : List Char := natDigitsAux (n + 1) n

/-- Decimal string of an integer, as Python `str(z)` renders it. -/
def intDigits (z : ℤ) : Str := (if z < 0 then ['-'] else []) ++ natDigits z.natAbs

/-- Round a rational to the nearest integer, ties to even; this is the
rounding Python's fixed-point float formatting performs. -/
def roundHalfEven (q : ℚ) : ℤ :=
  let f := ⌊q⌋
  let r := q - f
  if r < 1/2 then f else if 1/2 < r then f + 1 else if f % 2 = 0 then f else f + 1

/-- Python `"%.1f" % q` / `format(q, ".1f")`: one decimal digit. -/
def oneDecimal (q : ℚ) : Str :=
  let n := roundHalfEven (q * 10)
  (if n < 0 then ['-'] else []) ++ natDigits (n.natAbs / 10) ++ ['.', digitChar (n.natAbs % 10)]

/-- Left-pad with a character to a minimum width, as Python numeric format
padding does. -/
def padLeft (n : ℕ) (c : Char) (s : Str) : Str := List.replicate (n - s.length) c ++ s

/-- Fuel-driven comma grouping; the fuel only bounds the recursion depth
and `group3` always supplies enough. -/
def group3Aux : ℕ → Str → Str
  | 0, ds => ds
  | fuel + 1, ds =>
    if ds.length ≤ 3 then ds
    else group3Aux fuel (ds.take (ds.length - 3)) ++ ',' :: ds.drop (ds.length - 3)

/-- Insert thousands separators every three digits from the right, as
Python `format(n, ",")` does on the digit string. -/
def group3 (ds : Str) : Str := group3Aux ds.length ds

/-- progress.py line 334: `f"{progress:5.1%}"`. -/
def fmtPercent (p : ℚ) : Str := padLeft 5 ' ' (oneDecimal (p * 100) ++ ['%'])

/-- progress.py line 337: `f"{current:,}"` (thousands-grouped integer). -/
def fmtCounter (c : ℤ) : Str := (if c < 0 then ['-'] else []) ++ group3 (natDigits c.natAbs)

/-- progress.py lines 340-345: the ETA part, already guarded by `eta > 0`. -/
def fmtEta (eta : ℚ) : Str :=
  if eta < 60 then "ETA ".toList ++ oneDecimal eta ++ ['s']
  else if eta < 3600 then "ETA ".toList ++ oneDecimal (eta / 60) ++ ['m']
  else "ETA ".toList ++ oneDecimal (eta / 3600) ++ ['h']

/-- progress.py lines 350-355: the speed part with its unit bands. -/
def fmtSpeed (s : ℚ) : Str :=
  if s < 1000 then oneDecimal s ++ "/s".toList
  else if s < 1000000 then oneDecimal (s / 1000) ++ "K/s".toList
  else oneDecimal (s / 1000000) ++ "M/s".toList

/-- Python `sep.join(parts)`. -/
def joinSep (sep : Str) : List Str → Str
  | [] => []
  | [s] => s
  | s :: rest => s ++ sep ++ joinSep sep rest

/-! ## Style drawing functions (progress.py lines 92-266)

Each Python `draw_func` closure becomes a function from the progress
fraction to the `(filled_part, empty_part)` pair of strings.  The animated
styles additionally take and return their frame cursor. -/

/-- progress.py line 93: `chars = " ▏▎▍▋▊▉"` (7 glyphs). -/
def blockChars : Str := " ▏▎▍▋▊▉".toList

/-- progress.py lines 94-100, the `block` style.  Note the source computes
`int(p * (width * len(chars)-1))`, which by Python operator precedence is
`p * (7*width - 1)`. -/
def blockDraw (width : ℕ) (p : ℚ) : Str × Str :=
  let filled : ℤ := pyInt (p * (((width : ℤ) * (blockChars.length : ℤ) - 1 : ℤ) : ℚ))
  let full : ℤ := Int.fdiv filled ((blockChars.length : ℤ) - 1)
  let part : ℤ := Int.fmod filled ((blockChars.length : ℤ) - 1)
  let bar := List.replicate full.toNat (blockChars.getLastD ' ')
    ++ (if part ≠ 0 then [blockChars.getD part.toNat ' '] else [])
  (bar ++ List.replicate (width - bar.length) ' ', List.replicate width ' ')

/-- progress.py line 108: `braille = " ⡀⡄⡆⡇⡏⡟⡿⣿"` (9 glyphs). -/
def brailleChars : Str := " ⡀⡄⡆⡇⡏⡟⡿⣿".toList

/-- progress.py lines 109-115, the `braille` style: quarter-cell units and
`braille[7]` as the "full" glyph. -/
def brailleDraw (width : ℕ) (p : ℚ) : Str × Str :=
  let filled : ℤ := pyInt (p * width * 4)
  let full : ℤ := Int.fdiv filled 4
  let part : ℤ := Int.fmod filled 4
  let bar := List.replicate full.toNat (brailleChars.getD 7 ' ')
    ++ (if part ≠ 0 then [brailleChars.getD part.toNat ' '] else [])
  (bar ++ List.replicate (width - bar.length) ' ', List.replicate width ' ')

/-- The shared shape of the threshold-fill branches (progress.py lines
102-105, 117-130, 187-200, 248-252): `filled = int(p * width)`, the filled
glyph repeated `filled` times, the empty glyph repeated `width - filled`
times.  The glyphs are strings, as Python string repetition allows. -/
def thresholdDraw (fg eg : Str) (width : ℕ) (p : ℚ) : Str × Str :=
  let filled : ℤ := pyInt (p * width)
  (List.flatten (List.replicate filled.toNat fg),
   List.flatten (List.replicate ((width : ℤ) - filled).toNat eg))

/-- progress.py lines 102-105, the `classic` style. -/
def classicDraw (width : ℕ) (p : ℚ) : Str × Str := thresholdDraw ['■'] ['□'] width p

/-- progress.py lines 117-120, the `arrow` style. -/
def arrowDraw (width : ℕ) (p : ℚ) : Str × Str := thresholdDraw ['>'] ['-'] width p

/-- progress.py lines 122-125, the `equal` style. -/
def equalDraw (width : ℕ) (p : ℚ) : Str × Str := thresholdDraw ['='] ['-'] width p

/-- progress.py lines 127-130, the `dot` style. -/
def dotDraw (width : ℕ) (p : ℚ) : Str × Str := thresholdDraw ['•'] ['.'] width p

/-- progress.py lines 187-190, the `hash` style. -/
def hashDraw (width : ℕ) (p : ℚ) : Str × Str := thresholdDraw ['#'] ['.'] width p

/-- progress.py lines 192-195, the `star` style. -/
def starDraw (width : ℕ) (p : ℚ) : Str × Str := thresholdDraw ['★'] ['☆'] width p

/-- progress.py lines 197-200, the `triangle` style. -/
def triangleDraw (width : ℕ) (p : ℚ) : Str × Str := thresholdDraw ['▲'] ['▽'] width p

/-- Modelled from the spec: `UnicodeBlocks.VERTICAL` from the `themes`
module, whose source is not in the repository snapshot; the spec's style
table says "ramp = 8 vertical-block glyphs" and the class docstring shows
`▁▂▃▄▅▆▇█`. -/
def verticalChars : Str := "▁▂▃▄▅▆▇█".toList

/-- progress.py lines 132-144, the `vertical` style: one glyph chosen from
overall progress, repeated for every filled cell, spaces for the rest. -/
def verticalDraw (width : ℕ) (p : ℚ) : Str × Str :=
  let filled : ℤ := pyInt (p * width)
  let idx : ℤ := min (pyInt (p * (verticalChars.length : ℤ))) ((verticalChars.length : ℤ) - 1)
  let bar := List.replicate (min filled.toNat width) (verticalChars.getD idx.toNat ' ')
    ++ List.replicate (width - filled.toNat) ' '
  (bar, List.replicate width ' ')

/-- Modelled from the spec: `GeometricSymbols.CIRCLES["filled"]` from the
`themes` module, whose source is not in the repository snapshot; the spec
table says "circle-fill glyphs, index 0 = empty glyph" and the class
docstring shows `○◔◑◕●`. -/
def circleChars : Str := "○◔◑◕●".toList

/-- Modelled from the spec: `GeometricSymbols.SQUARES` from the `themes`
module, whose source is not in the repository snapshot; the spec table says
"square-fill glyphs, index 0 = empty glyph" and the class docstring shows
`□◱◲■`. -/
def squareChars : Str := "□◱◲■".toList

/-- The shared shape of the `circle` and `square` branches (progress.py
lines 146-168): every filled cell gets the glyph indexed by overall
progress, the empty cells get the ramp's index-0 glyph. -/
def charRampDraw (ramp : Str) (width : ℕ) (p : ℚ) : Str × Str :=
  let filled : ℤ := pyInt (p * width)
  let idx : ℤ := min (pyInt (p * (ramp.length : ℤ))) ((ramp.length : ℤ) - 1)
  (List.replicate filled.toNat (ramp.getD idx.toNat ' '),
   List.replicate ((width : ℤ) - filled).toNat (ramp.getD 0 ' '))

/-- progress.py lines 146-156, the `circle` style. -/
def circleDraw (width : ℕ) (p : ℚ) : Str × Str := charRampDraw circleChars width p

/-- progress.py lines 158-168, the `square` style. -/
def squareDraw (width : ℕ) (p : ℚ) : Str × Str := charRampDraw squareChars width p

/-- progress.py lines 170-185, the `gradient` style.  The Python literals
`0.33` and `0.66` are modelled as the rationals they denote. -/
def gradientDraw (width : ℕ) (p : ℚ) : Str × Str :=
  let filled : ℤ := pyInt (p * width)
  let shade : Char := if p < 33/100 then '░' else if p < 66/100 then '▒' else '▓'
  let bar := List.replicate (min filled.toNat width) shade
    ++ List.replicate (width - filled.toNat) ' '
  (bar, List.replicate width ' ')

/-- progress.py lines 254-266, the `custom_list` style: the glyph indexed
by overall progress repeated for every filled cell, the index-0 glyph for
the empty cells. -/
def customListDraw (cs : List Str) (width : ℕ) (p : ℚ) : Str × Str :=
  let filled : ℤ := pyInt (p * width)
  let idx : ℤ := min (pyInt (p * (cs.length : ℤ))) ((cs.length : ℤ) - 1)
  (List.flatten (List.replicate filled.toNat (cs.getD idx.toNat [])),
   List.flatten (List.replicate ((width : ℤ) - filled).toNat (cs.getD 0 [])))

/-- progress.py lines 203-204: the nine fixed-width bounce frames. -/
def bounceFrames : List Str :=
  ["(→    )".toList, "( →   )".toList, "(  →  )".toList, "(   → )".toList,
   "(    →)".toList, "(   ← )".toList, "(  ←  )".toList, "( ←   )".toList,
   "(←    )".toList]

/-- progress.py lines 205-216, one call of the `bounce` closure: the
emitted frame index comes from the progress value, while the internal
cursor `i` is advanced (and never read for emission). -/
def bounceStep (p : ℚ) (i : ℕ) : (Str × Str) × ℕ :=
  let frameIdx : ℤ := pyInt (p * ((bounceFrames.length : ℤ) - 1))
  ((bounceFrames.getD frameIdx.toNat [], []), (i + 1) % bounceFrames.length)

/-- progress.py line 219: the eight `spin_arrow` direction glyphs. -/
def spinArrowFrames : Str := "←↖↑↗→↘↓↙".toList

/-- progress.py line 233: the four `spin_simple` glyphs (backslash, pipe,
forward slash, dash). -/
def spinSimpleFrames : Str := ['\\', '|', '/', '-']

/-- progress.py line 235: the ten `spin_dots` glyphs. -/
def spinDotsFrames : Str := "⠋⠙⠹⠸⠼⠴⠦⠧⠇⠏".toList

/-- progress.py lines 220-229 and 237-246, one call of a spinner closure:
the emitted glyph is `frames[i % len(frames)]`, the progress argument is
ignored (the Python parameter is `_`), and the cursor advances by one
modulo the frame count.  With `spinner_only` the glyph is repeated
`width // 3` times. -/
def spinStep (frames : Str) (width : ℕ) (spinnerOnly : Bool) (_ : ℚ) (i : ℕ) :
    (Str × Str) × ℕ :=
  let s := frames.getD (i % frames.length) ' '
  ((if spinnerOnly then List.replicate (width / 3) s else [s], []),
   (i + 1) % frames.length)

/-! ## The factory (progress.py lines 43-269) -/

/-- The `style` argument of `get_progress_drawer`: a style name or a list
of glyph strings. -/
inductive StyleArg where
  | name (s : Str)
  | list (cs : List Str)

/-- The style resolved by the factory's dispatch, determining which
`draw_func` is built. -/
inductive Resolved where
  | customPair (fg eg : Str)
  | customList (cs : List Str)
  | block | classic | braille | arrow | equal | dot
  | vertical | circle | square | gradient | hash | star | triangle
  | bounce | spinArrow | spinSimple | spinDots
deriving DecidableEq

/-- The public attribute names of `ProgressStyle`, in class-body order:
what `[k for k in ProgressStyle.__dict__.keys() if not k.startswith('_')]`
yields on progress.py lines 16-40. -/
def knownIdents : List Str :=
  ["BLOCK".toList, "CLASSIC".toList, "BRAILLE".toList, "ARROW".toList,
   "EQUAL".toList, "DOT".toList, "SPIN_SIMPLE".toList, "SPIN_DOTS".toList,
   "SPIN_ARROW".toList, "VERTICAL".toList, "CIRCLE".toList, "SQUARE".toList,
   "GRADIENT".toList, "HASH".toList, "STAR".toList, "TRIANGLE".toList,
   "BOUNCE".toList]

/-- The lowercase style names the factory's dispatch chain recognizes,
in chain order.  `custom` and `custom_list` are reachable with a string
style argument and no `custom_chars`: the `elif` chain handles them with
the empty initializers of lines 73-75 rather than falling through to the
unknown-style error. -/
def knownLowerNames : List Str :=
  ["block".toList, "classic".toList, "braille".toList, "arrow".toList,
   "equal".toList, "dot".toList, "vertical".toList, "circle".toList,
   "square".toList, "gradient".toList, "hash".toList, "star".toList,
   "triangle".toList, "bounce".toList, "spin_arrow".toList,
   "spin_simple".toList, "spin_dots".toList, "custom".toList,
   "custom_list".toList]

/-- Python `repr` of a simple string: surrounded by single quotes. -/
def pyRepr (s : Str) : Str := Char.ofNat 39 :: (s ++ [Char.ofNat 39])

/-- progress.py line 269: the unknown-style error message,
`f"Unknown style: {style!r}. Available: {', '.join(...)}"`. -/
def unknownStyleMsg (s : Str) : Str :=
  "Unknown style: ".toList ++ pyRepr s ++ ". Available: ".toList
    ++ joinSep ", ".toList knownIdents

/-- progress.py lines 71-269: style resolution in `get_progress_drawer`.
`custom_chars` wins outright (lines 77-80); a list style must be non-empty
(lines 81-86); otherwise the lowercased name is dispatched through the
`elif` chain, ending in the unknown-style `ValueError` (line 269).  When a
*string* style reaches the chain, `filled_char`, `empty_char` and `chars`
still hold their empty initializers from lines 73-75: the name `custom`
therefore succeeds with an empty glyph pair (line 248), and the name
`custom_list` trips the inner emptiness check of lines 256-257 — that
check is unreachable only via the list-style path, which line 84 already
guards. -/
def resolveStyle (style : StyleArg) (customChars : Option (Str × Str)) :
    Except Str Resolved :=
  match customChars with
  | some (fg, eg) => .ok (.customPair fg eg)
  | none =>
    match style with
    | .list cs =>
      if cs.length < 1 then .error "Character list must have at least one character".toList
      else .ok (.customList cs)
    | .name s =>
      let n := toLowerStr s
      if n = "block".toList then .ok .block
      else if n = "classic".toList then .ok .classic
      else if n = "braille".toList then .ok .braille
      else if n = "arrow".toList then .ok .arrow
      else if n = "equal".toList then .ok .equal
      else if n = "dot".toList then .ok .dot
      else if n = "vertical".toList then .ok .vertical
      else if n = "circle".toList then .ok .circle
      else if n = "square".toList then .ok .square
      else if n = "gradient".toList then .ok .gradient
      else if n = "hash".toList then .ok .hash
      else if n = "star".toList then .ok .star
      else if n = "triangle".toList then .ok .triangle
      else if n = "bounce".toList then .ok .bounce
      else if n = "spin_arrow".toList then .ok .spinArrow
      else if n = "spin_simple".toList ∨ n = "spin_dots".toList then
        if n = "spin_simple".toList then .ok .spinSimple else .ok .spinDots
      else if n = "custom".toList then .ok (.customPair [] [])
      else if n = "custom_list".toList then
        if ([] : List Str).length = 0 then .error "Character list cannot be empty".toList
        else .ok (.customList [])
      else .error (unknownStyleMsg s)

/-- The drawing function each resolved style yields.  Stateless styles
ignore and return the cursor unchanged; animated styles step it. -/
def drawerOf (r : Resolved) (width : ℕ) (spinnerOnly : Bool) (p : ℚ) (i : ℕ) :
    (Str × Str) × ℕ :=
  match r with
  | .customPair fg eg => (thresholdDraw fg eg width p, i)
  | .customList cs => (customListDraw cs width p, i)
  | .block => (blockDraw width p, i)
  | .classic => (classicDraw width p, i)
  | .braille => (brailleDraw width p, i)
  | .arrow => (arrowDraw width p, i)
  | .equal => (equalDraw width p, i)
  | .dot => (dotDraw width p, i)
  | .vertical => (verticalDraw width p, i)
  | .circle => (circleDraw width p, i)
  | .square => (squareDraw width p, i)
  | .gradient => (gradientDraw width p, i)
  | .hash => (hashDraw width p, i)
  | .star => (starDraw width p, i)
  | .triangle => (triangleDraw width p, i)
  | .bounce => bounceStep p i
  | .spinArrow => spinStep spinArrowFrames width spinnerOnly p i
  | .spinSimple => spinStep spinSimpleFrames width spinnerOnly p i
  | .spinDots => spinStep spinDotsFrames width spinnerOnly p i

/-! ## The `draw` call (progress.py lines 291-366) -/

/-- The four metric flags of the factory that the `draw` closure reads. -/
structure DrawCfg where
  showPercentage : Bool
  showCounter : Bool
  showEta : Bool
  showSpeed : Bool

/-- The speed tracker captured by the closure: `last_update` (a timestamp)
and `last_value` (the last observed count), progress.py lines 67-69. -/
structure SpeedState where
  lastUpdate : ℚ
  lastValue : ℤ
deriving DecidableEq

/-- progress.py lines 309-310: out-of-range progress is silently clamped. -/
def clampProgress (p : ℚ) : ℚ := if 0 ≤ p ∧ p ≤ 1 then p else max 0 (min 1 p)

/-- progress.py lines 312-319: the computed speed and the tracker update.
A speed is computed only when it is requested, not explicitly supplied,
a current count is given, and strictly positive wall-clock time has
elapsed; only in that case is the tracker advanced. -/
def computeSpeed (showSpeed : Bool) (speed : Option ℚ) (current : Option ℤ)
    (now : ℚ) (st : SpeedState) : Option ℚ × SpeedState :=
  if showSpeed = true ∧ speed = none then
    match current with
    | some c =>
      if st.lastUpdate < now then
        (some (((c : ℚ) - (st.lastValue : ℚ)) / (now - st.lastUpdate)), ⟨now, c⟩)
      else (none, st)
    | none => (none, st)
  else (none, st)

/-- progress.py lines 333-334: the percentage part. -/
def pctParts (showP : Bool) (p : ℚ) : List Str :=
  if showP then [fmtPercent p] else []

/-- progress.py lines 336-337: the counter part. -/
def counterParts (showC : Bool) (current : Option ℤ) : List Str :=
  match showC, current with
  | true, some c => [fmtCounter c]
  | _, _ => []

/-- progress.py lines 339-345: the ETA part, shown only when `eta > 0`. -/
def etaParts (showE : Bool) (eta : Option ℚ) : List Str :=
  match showE, eta with
  | true, some v => if 0 < v then [fmtEta v] else []
  | _, _ => []

/-- progress.py lines 347-355: the speed part; an explicit `speed` argument
takes precedence over the computed one. -/
def speedParts (showS : Bool) (speed computed : Option ℚ) : List Str :=
  if showS then
    match speed with
    | some s => [fmtSpeed s]
    | none =>
      match computed with
      | some s => [fmtSpeed s]
      | none => []
  else []

/-- progress.py lines 331-355: the metric parts, in their fixed order. -/
def buildParts (cfg : DrawCfg) (p : ℚ) (current : Option ℤ) (eta : Option ℚ)
    (speed computed : Option ℚ) : List Str :=
  pctParts cfg.showPercentage p ++ counterParts cfg.showCounter current
    ++ etaParts cfg.showEta eta ++ speedParts cfg.showSpeed speed computed

/-- One `draw` call (progress.py lines 291-366): clamp, compute the speed,
render the segments, build the suffix, and write `"\r" + bar + extra`,
followed by a newline exactly when the clamped progress reached 1.  The
returned string is the concatenation of everything written; the second
component is the updated speed tracker.  The default color theme
(`ColorTheme.default`, whose module is outside the snapshot) is, per the
spec, a no-op, so the segments pass through unchanged here. -/
def draw (cfg : DrawCfg) (drawFunc : ℚ → Str × Str) (st : SpeedState)
    (now : ℚ) (progress : ℚ) (current : Option ℤ) (eta speed : Option ℚ) :
    Str × SpeedState :=
  let p := clampProgress progress
  let cs := computeSpeed cfg.showSpeed speed current now st
  let fe := drawFunc p
  let bar := fe.1 ++ fe.2
  let parts := buildParts cfg p current eta speed cs.1
  let extra := if parts = [] then [] else " │ ".toList ++ joinSep "  ".toList parts
  (['\r'] ++ bar ++ extra ++ (if 1 ≤ p then ['\n'] else []), cs.2)

/-! ## MultiProgress (progress.py lines 372-410) -/

/-- progress.py line 391: the ANSI cursor-up sequence `f"\033[{n}A"`. -/
def cursorUp (n : ℕ) : Str := '\x1b' :: '[' :: (natDigits n ++ ['A'])

/-- Number of newline characters in an output string. -/
def countNewlines (s : Str) : ℕ := s.count '\n'

/-- The configuration `MultiProgress.__init__` uses for its row drawers:
`get_progress_drawer(style, width, show_percentage=False)`, all other
metric flags defaulting to `False` (progress.py lines 380-381). -/
def mpCfg : DrawCfg := ⟨false, false, false, false⟩

/-- One `MultiProgress.update` call (progress.py lines 384-405): an
`IndexError` for an out-of-range index, otherwise the cursor-up header,
then one line per bar — the updated bar gets its prefix, its drawer's
output and a newline, every other bar just a newline.  Returns the
concatenated output and the new `lines_written`.  The row drawer is the
stateless `drawFunc` (the default `block` style is stateless); its speed
tracker is irrelevant because `show_speed` is off. -/
def multiUpdate (count : ℕ) (drawFunc : ℚ → Str × Str) (linesWritten : ℕ)
    (index : ℤ) (progress : ℚ) (label : Str) : Except Str (Str × ℕ) :=
  if index < 0 ∨ (count : ℤ) ≤ index then
    .error ("Index ".toList ++ intDigits index ++ " out of range (0-".toList
      ++ intDigits ((count : ℤ) - 1) ++ [')'])
  else
    let header := if linesWritten ≠ 0 then cursorUp linesWritten else []
    let rows := (List.range count).map (fun (i : ℕ) =>
      if (i : ℤ) = index then
        (if label ≠ [] then label ++ ": ".toList
         else "Bar ".toList ++ natDigits (i + 1) ++ ": ".toList)
          ++ (draw mpCfg drawFunc ⟨0, 0⟩ 0 progress none none none).1 ++ ['\n']
      else ['\n'])
    .ok (header ++ rows.flatten, count)

/-! ## The spec's sub-glyph interpolation formula (spec section 4.1) -/

/-- Modelled from the spec's words, for comparison with the source's
`block`/`braille` draw functions: `totalUnits = floor(progress * width *
(k-1))`, `fullGlyphs = totalUnits div (k-1)`, `remainder = totalUnits mod
(k-1)`, the ramp's last glyph repeated `fullGlyphs` times, then
`ramp[remainder]` if the remainder is positive, right-padded with spaces
to `width`. -/
def specSubGlyphBar (ramp : Str) (width : ℕ) (p : ℚ) : Str :=
  let total : ℕ := (⌊p * (width : ℚ) * (((ramp.length : ℤ) - 1 : ℤ) : ℚ)⌋).toNat
  let full : ℕ := total / (ramp.length - 1)
  let rem : ℕ := total % (ramp.length - 1)
  let bar := List.replicate full (ramp.getLastD ' ')
    ++ (if 0 < rem then [ramp.getD rem ' '] else [])
  bar ++ List.replicate (width - bar.length) ' '

/-! ## Helper lemmas -/

/-- On nonnegative rationals, Python truncation agrees with the floor. -/
lemma pyInt_of_nonneg {q : ℚ} (h : 0 ≤ q) : pyInt q = ⌊q⌋ := by
  simp [pyInt, not_lt.mpr h]

/-- Evaluation rule for `pyInt` on concrete nonnegative rationals. -/
lemma pyInt_eq (q : ℚ) (n : ℤ) (h0 : 0 ≤ q) (h1 : (n : ℚ) ≤ q) (h2 : q < n + 1) :
    pyInt q = n := by
  rw [pyInt_of_nonneg h0]
  exact Int.floor_eq_iff.mpr ⟨h1, h2⟩

/-- Clamping is the identity on `[0,1]`. -/
lemma clampProgress_eq {p : ℚ} (h : 0 ≤ p ∧ p ≤ 1) : clampProgress p = p := by
  unfold clampProgress
  rw [if_pos h]

/-- Rounding an integer-valued rational is exact. -/
lemma roundHalfEven_intCast (n : ℤ) : roundHalfEven (n : ℚ) = n := by
  unfold roundHalfEven
  rw [Int.floor_intCast]
  rw [if_pos (by norm_num)]

/-- Rounding a value whose fractional part exceeds one half rounds up. -/
lemma roundHalfEven_eq_of_gt (q : ℚ) (f : ℤ) (hf : ⌊q⌋ = f) (hr : 1/2 < q - f) :
    roundHalfEven q = f + 1 := by
  unfold roundHalfEven
  rw [hf, if_neg (by linarith), if_pos hr]

/-- Evaluation rule for `oneDecimal` from the rounded tenths value. -/
lemma oneDecimal_eq_of (q : ℚ) (n : ℤ) (h : roundHalfEven (q * 10) = n) :
    oneDecimal q = (if n < 0 then ['-'] else [])
      ++ natDigits (n.natAbs / 10) ++ ['.', digitChar (n.natAbs % 10)] := by
  unfold oneDecimal
  rw [h]

/-- Evaluation rule for `oneDecimal` when ten times the value is the
integer `n`. -/
lemma oneDecimal_eq (q : ℚ) (n : ℤ) (h : q * 10 = (n : ℚ)) :
    oneDecimal q = (if n < 0 then ['-'] else [])
      ++ natDigits (n.natAbs / 10) ++ ['.', digitChar (n.natAbs % 10)] := by
  exact oneDecimal_eq_of q n (by rw [h, roundHalfEven_intCast])

/-- Clamping reaches 1 exactly when the raw progress reached 1. -/
lemma one_le_clampProgress (p : ℚ) : 1 ≤ clampProgress p ↔ 1 ≤ p := by
  unfold clampProgress
  split
  · exact Iff.rfl
  · constructor
    · intro h1
      rcases le_max_iff.mp h1 with h2 | h2
      · norm_num at h2
      · exact (le_min_iff.mp h2).2
    · intro h1
      exact le_max_of_le_right (le_min_iff.mpr ⟨le_refl 1, h1⟩)

/-- Length of a flattened replication. -/
lemma length_flatten_replicate (n : ℕ) (l : Str) :
    (List.flatten (List.replicate n l)).length = n * l.length := by
  simp [List.length_flatten, List.map_replicate, List.sum_replicate, smul_eq_mul]

/-- The two segment lengths produced by a threshold-fill style. -/
lemma thresholdDraw_lengths (fg eg : Str) (w : ℕ) (p : ℚ) :
    (thresholdDraw fg eg w p).1.length = (pyInt (p * w)).toNat * fg.length ∧
    (thresholdDraw fg eg w p).2.length = ((w : ℤ) - pyInt (p * w)).toNat * eg.length := by
  constructor <;> simp [thresholdDraw, length_flatten_replicate]

/-- For progress in `[0,1]` the threshold fill count lies in `[0, width]`. -/
lemma filled_bounds (w : ℕ) {p : ℚ} (h0 : 0 ≤ p) (h1 : p ≤ 1) :
    0 ≤ pyInt (p * w) ∧ pyInt (p * w) ≤ w := by
  have hw : (0 : ℚ) ≤ w := by positivity
  rw [pyInt_of_nonneg (mul_nonneg h0 hw)]
  constructor
  · exact Int.floor_nonneg.mpr (mul_nonneg h0 hw)
  · have : p * w ≤ (w : ℚ) := by
      calc p * w ≤ 1 * w := mul_le_mul_of_nonneg_right h1 hw
        _ = w := one_mul _
    simpa using Int.floor_le_floor this

/-- Digit characters are never control characters. -/
lemma digitChar_ne_nl : ∀ d < 10, digitChar d ≠ '\n' := by decide

/-- Fuel-driven digit strings contain no newline. -/
lemma natDigitsAux_noNL (fuel : ℕ) : ∀ n, '\n' ∉ natDigitsAux fuel n := by
  induction fuel with
  | zero => intro n; simp [natDigitsAux]
  | succ fuel ih =>
    intro n
    rw [natDigitsAux]
    split
    next h =>
      simp only [List.mem_singleton]
      intro he
      exact digitChar_ne_nl n h he.symm
    next h =>
      intro hmem
      rcases List.mem_append.mp hmem with h1 | h2
      · exact ih (n / 10) h1
      · simp only [List.mem_singleton] at h2
        exact digitChar_ne_nl (n % 10) (Nat.mod_lt _ (by omega)) h2.symm

/-- Decimal digit strings contain no newline. -/
lemma natDigits_noNL (n : ℕ) : '\n' ∉ natDigits n := natDigitsAux_noNL _ n

/-- Integer decimal strings contain no newline. -/
lemma intDigits_noNL (z : ℤ) : '\n' ∉ intDigits z := by
  unfold intDigits
  intro hmem
  rcases List.mem_append.mp hmem with h1 | h2
  · split at h1 <;> simp_all
  · exact natDigits_noNL _ h2

/-- Fuel-driven comma grouping introduces only commas. -/
lemma group3Aux_noNL (fuel : ℕ) : ∀ ds : Str, '\n' ∉ ds → '\n' ∉ group3Aux fuel ds := by
  induction fuel with
  | zero => intro ds h; exact h
  | succ fuel ih =>
    intro ds hnot
    rw [group3Aux]
    split
    · exact hnot
    next hgt =>
      intro hmem
      rcases List.mem_append.mp hmem with h1 | h2
      · exact ih _ (fun hc => hnot (List.mem_of_mem_take hc)) h1
      · rcases List.mem_cons.mp h2 with h3 | h3
        · exact absurd h3 (by decide)
        · exact hnot (List.mem_of_mem_drop h3)

/-- Thousands grouping introduces only commas. -/
lemma group3_noNL (ds : Str) (h : '\n' ∉ ds) : '\n' ∉ group3 ds :=
  group3Aux_noNL _ _ h

/-- One-decimal formatting contains no newline. -/
lemma oneDecimal_noNL (q : ℚ) : '\n' ∉ oneDecimal q := by
  unfold oneDecimal
  intro hmem
  rcases List.mem_append.mp hmem with h1 | h2
  · rcases List.mem_append.mp h1 with h3 | h4
    · split at h3 <;> simp_all
    · exact natDigits_noNL _ h4
  · rcases List.mem_cons.mp h2 with h3 | h3
    · exact absurd h3 (by decide)
    · simp only [List.mem_singleton] at h3
      exact digitChar_ne_nl _ (Nat.mod_lt _ (by omega)) h3.symm

/-- Left padding with spaces contains no newline if the payload has none. -/
lemma padLeft_noNL (n : ℕ) (s : Str) (h : '\n' ∉ s) : '\n' ∉ padLeft n ' ' s := by
  unfold padLeft
  intro hmem
  rcases List.mem_append.mp hmem with h1 | h2
  · exact absurd (List.eq_of_mem_replicate h1) (by decide)
  · exact h h2

/-- The percentage part contains no newline. -/
lemma fmtPercent_noNL (p : ℚ) : '\n' ∉ fmtPercent p := by
  unfold fmtPercent
  refine padLeft_noNL _ _ ?_
  intro hmem
  rcases List.mem_append.mp hmem with h1 | h2
  · exact oneDecimal_noNL _ h1
  · simp_all

/-- The counter part contains no newline. -/
lemma fmtCounter_noNL (c : ℤ) : '\n' ∉ fmtCounter c := by
  unfold fmtCounter
  intro hmem
  rcases List.mem_append.mp hmem with h1 | h2
  · split at h1 <;> simp_all
  · exact group3_noNL _ (natDigits_noNL _) h2

/-- The ETA part contains no newline. -/
lemma fmtEta_noNL (v : ℚ) : '\n' ∉ fmtEta v := by
  unfold fmtEta
  split <;> [skip; split] <;>
  · intro hmem
    rcases List.mem_append.mp hmem with h1 | h2
    · rcases List.mem_append.mp h1 with h3 | h4
      · exact absurd h3 (by decide)
      · exact oneDecimal_noNL _ h4
    · simp_all

/-- The speed part contains no newline. -/
lemma fmtSpeed_noNL (s : ℚ) : '\n' ∉ fmtSpeed s := by
  unfold fmtSpeed
  split <;> [skip; split] <;>
  · intro hmem
    rcases List.mem_append.mp hmem with h1 | h2
    · exact oneDecimal_noNL _ h1
    · exact absurd h2 (by decide)

/-- No metric part ever contains a newline. -/
lemma buildParts_noNL (cfg : DrawCfg) (p : ℚ) (current : Option ℤ)
    (eta speed computed : Option ℚ) :
    ∀ s ∈ buildParts cfg p current eta speed computed, '\n' ∉ s := by
  intro s hs
  unfold buildParts at hs
  rcases List.mem_append.mp hs with hs | hs4
  rotate_left
  · unfold speedParts at hs4
    split at hs4
    · split at hs4 <;> [skip; split at hs4] <;> simp_all <;> exact fmtSpeed_noNL _
    · simp_all
  rcases List.mem_append.mp hs with hs | hs3
  rotate_left
  · unfold etaParts at hs3
    split at hs3
    · split at hs3 <;> simp_all <;> exact fmtEta_noNL _
    · simp_all
  rcases List.mem_append.mp hs with hs1 | hs2
  · unfold pctParts at hs1
    split at hs1 <;> simp_all <;> exact fmtPercent_noNL _
  · unfold counterParts at hs2
    split at hs2 <;> simp_all <;> exact fmtCounter_noNL _

/-- Joining newline-free parts with a newline-free separator stays
newline-free. -/
lemma joinSep_noNL (sep : Str) (parts : List Str) (hsep : '\n' ∉ sep)
    (h : ∀ s ∈ parts, '\n' ∉ s) : '\n' ∉ joinSep sep parts := by
  induction parts with
  | nil => simp [joinSep]
  | cons a t ih =>
    cases t with
    | nil => exact h a (by simp)
    | cons b t2 =>
      show '\n' ∉ a ++ sep ++ joinSep sep (b :: t2)
      intro hmem
      rcases List.mem_append.mp hmem with h1 | h2
      · rcases List.mem_append.mp h1 with h3 | h4
        · exact h a (by simp) h3
        · exact hsep h4
      · exact ih (fun s hs => h s (List.mem_cons_of_mem _ hs)) h2

/-- The speed 50 is printed in the plain band as `50.0/s`. -/
lemma fmtSpeed_50 : fmtSpeed 50 = "50.0/s".toList := by
  unfold fmtSpeed
  rw [if_pos (by norm_num : (50 : ℚ) < 1000), oneDecimal_eq 50 500 (by norm_num)]
  decide

/-- The percentage for one half is `50.0%`. -/
lemma fmtPercent_half : fmtPercent (1/2) = "50.0%".toList := by
  unfold fmtPercent
  rw [show (1/2 : ℚ) * 100 = 50 from by norm_num, oneDecimal_eq 50 500 (by norm_num)]
  decide

/-- An ETA of 59.9 seconds uses the seconds format. -/
lemma fmtEta_below_minute : fmtEta (599/10) = "ETA 59.9s".toList := by
  unfold fmtEta
  rw [if_pos (by norm_num : (599/10 : ℚ) < 60), oneDecimal_eq (599/10) 599 (by norm_num)]
  decide

/-- An ETA of exactly 60 seconds uses the minutes format. -/
lemma fmtEta_minute : fmtEta 60 = "ETA 1.0m".toList := by
  unfold fmtEta
  rw [if_neg (by norm_num), if_pos (by norm_num : (60 : ℚ) < 3600),
    show (60 : ℚ) / 60 = 1 from by norm_num, oneDecimal_eq 1 10 (by norm_num)]
  decide

/-- An ETA of 3599.9 seconds still uses the minutes format. -/
lemma fmtEta_last_minute : fmtEta (35999/10) = "ETA 60.0m".toList := by
  unfold fmtEta
  rw [if_neg (by norm_num), if_pos (by norm_num : (35999/10 : ℚ) < 3600)]
  have hr : roundHalfEven ((35999/10 : ℚ) / 60 * 10) = 600 := by
    rw [show ((35999/10 : ℚ) / 60 * 10) = 35999/60 from by norm_num]
    apply roundHalfEven_eq_of_gt _ 599
    · rw [Int.floor_eq_iff]
      constructor <;> (push_cast; norm_num)
    · push_cast
      norm_num
  rw [oneDecimal_eq_of _ 600 hr]
  decide

/-- An ETA of exactly 3600 seconds uses the hours format. -/
lemma fmtEta_hour : fmtEta 3600 = "ETA 1.0h".toList := by
  unfold fmtEta
  rw [if_neg (by norm_num), if_neg (by norm_num),
    show (3600 : ℚ) / 3600 = 1 from by norm_num, oneDecimal_eq 1 10 (by norm_num)]
  decide

/-- The ANSI cursor-up sequence contains no newline. -/
lemma cursorUp_noNL (n : ℕ) : '\n' ∉ cursorUp n := by
  unfold cursorUp
  intro hmem
  rcases List.mem_cons.mp hmem with h1 | hm
  · exact absurd h1 (by decide)
  rcases List.mem_cons.mp hm with h2 | hm2
  · exact absurd h2 (by decide)
  rcases List.mem_append.mp hm2 with h3 | h4
  · exact natDigits_noNL _ h3
  · simp only [List.mem_singleton] at h4
    exact absurd h4 (by decide)

/-- Summing one special row among otherwise unit rows. -/
lemma sum_range_ite (n j b : ℕ) (hj : j < n) :
    ((List.range n).map (fun i => if i = j then 1 + b else 1)).sum = n + b := by
  induction n with
  | zero => omega
  | succ n ih =>
    rw [List.range_succ, List.map_append, List.sum_append]
    rcases Nat.lt_or_ge j n with h | h
    · rw [ih h]
      simp only [List.map_cons, List.map_nil, List.sum_cons, List.sum_nil]
      rw [if_neg (by omega)]
      omega
    · have hmap : (List.range n).map (fun i => if i = j then 1 + b else 1)
          = (List.range n).map (fun _ => 1) := by
        apply List.map_congr_left
        intro i hi
        simp only [List.mem_range] at hi
        rw [if_neg (by omega)]
      rw [hmap]
      simp only [List.map_cons, List.map_nil, List.sum_cons, List.sum_nil]
      rw [if_pos (by omega : n = j)]
      have hone : ∀ m : ℕ, ((List.range m).map (fun _ => (1 : ℕ))).sum = m := by
        intro m
        induction m with
        | zero => rfl
        | succ m2 ihm =>
          rw [List.range_succ, List.map_append, List.sum_append, ihm]
          simp
      rw [hone]
      omega

/-- A newline-free list has newline count zero. -/
lemma count_nl_zero {s : Str} (h : '\n' ∉ s) : s.count '\n' = 0 :=
  List.count_eq_zero.mpr h

/-! ## Claims -/

/-- C1: the sub-glyph interpolation styles do not follow the spec's
formula.  At `progress = 1/2`, `width = 10` the spec's 7-glyph block
formula gives `totalUnits = 30`, `fullGlyphs = 5`, `remainder = 0`,
i.e. five full glyphs and five spaces; the source instead computes
`int(p * (width*7 - 1)) = 34`, giving `full = 5` and `part = 4`, so a
sixth, partial glyph `▋` appears.  The braille style likewise deviates
(quarter units and `braille[7]` instead of the 9-glyph formula): at
`progress = 1` it paints `⡿`, not the ramp's last glyph `⣿`. -/
theorem C1_subglyph_formula_divergence :
    (blockDraw 10 (1/2)).1 = List.replicate 5 '▉' ++ '▋' :: List.replicate 4 ' '
    ∧ specSubGlyphBar blockChars 10 (1/2) = List.replicate 5 '▉' ++ List.replicate 5 ' '
    ∧ (blockDraw 10 (1/2)).1 ≠ specSubGlyphBar blockChars 10 (1/2)
    ∧ (brailleDraw 10 1).1 = List.replicate 10 '⡿'
    ∧ specSubGlyphBar brailleChars 10 1 = List.replicate 10 '⣿'
    ∧ (brailleDraw 10 1).1 ≠ specSubGlyphBar brailleChars 10 1 := by
  have hb : pyInt ((1/2 : ℚ) * ((((10:ℕ) : ℤ) * (blockChars.length : ℤ) - 1 : ℤ) : ℚ)) = 34 := by
    apply pyInt_eq <;>
    · rw [show (((10:ℕ) : ℤ) * (blockChars.length : ℤ) - 1 : ℤ) = 69 from by decide]
      push_cast
      norm_num
  have hs : ⌊(1/2 : ℚ) * ((10:ℕ) : ℚ) * (((blockChars.length : ℤ) - 1 : ℤ) : ℚ)⌋ = 30 := by
    rw [show ((blockChars.length : ℤ) - 1 : ℤ) = 6 from by decide, Int.floor_eq_iff]
    constructor <;> (push_cast; norm_num)
  have hbr : pyInt ((1 : ℚ) * ((10:ℕ) : ℚ) * 4) = 40 := by
    apply pyInt_eq <;> (push_cast; norm_num)
  have hsbr : ⌊(1 : ℚ) * ((10:ℕ) : ℚ) * (((brailleChars.length : ℤ) - 1 : ℤ) : ℚ)⌋ = 80 := by
    rw [show ((brailleChars.length : ℤ) - 1 : ℤ) = 8 from by decide, Int.floor_eq_iff]
    constructor <;> (push_cast; norm_num)
  refine ⟨?_, ?_, ?_, ?_, ?_, ?_⟩
  · simp only [blockDraw]; rw [hb]; decide
  · simp only [specSubGlyphBar]; rw [hs]; decide
  · simp only [blockDraw, specSubGlyphBar]; rw [hb, hs]; decide
  · simp only [brailleDraw]; rw [hbr]; decide
  · simp only [specSubGlyphBar]; rw [hsbr]; decide
  · simp only [brailleDraw, specSubGlyphBar]; rw [hbr, hsbr]; decide

/-- C2: at `progress = 1`, `width = 10` the block style paints eleven full
glyphs and one partial glyph — twelve glyphs, not an all-filled bar of
exactly ten — because `int(p * (width * len(chars)-1))` evaluates `p *
(7*width - 1)` rather than the intended `p * width * 6`. -/
theorem C2_block_full_width_overflow :
    (blockDraw 10 1).1 = List.replicate 11 '▉' ++ ['▍']
    ∧ (blockDraw 10 1).1.length = 12
    ∧ (blockDraw 10 1).1.length ≠ 10 := by
  have hb : pyInt ((1 : ℚ) * ((((10:ℕ) : ℤ) * (blockChars.length : ℤ) - 1 : ℤ) : ℚ)) = 69 := by
    apply pyInt_eq <;>
    · rw [show (((10:ℕ) : ℤ) * (blockChars.length : ℤ) - 1 : ℤ) = 69 from by decide]
      push_cast
      norm_num
  refine ⟨?_, ?_, ?_⟩ <;> (simp only [blockDraw]; rw [hb]; decide)

/-- C3 counterexample: `spin_arrow` does not select its frame from
progress.  On its first call (cursor 0) at `progress = 1` it emits
`frames[0] = ←`, whereas the claim's formula `frames[floor(1 × 7)]`
names `↙`. -/
theorem C3_spin_arrow_not_progress_indexed :
    (spinStep spinArrowFrames 30 false 1 0).1.1 = ['←']
    ∧ spinArrowFrames.getD (pyInt (1 * ((spinArrowFrames.length : ℤ) - 1))).toNat ' ' = '↙'
    ∧ (spinStep spinArrowFrames 30 false 1 0).1.1
        ≠ [spinArrowFrames.getD (pyInt (1 * ((spinArrowFrames.length : ℤ) - 1))).toNat ' '] := by
  have h7 : pyInt (1 * ((spinArrowFrames.length : ℤ) - 1)) = 7 := by
    apply pyInt_eq <;>
    · rw [show spinArrowFrames.length = 8 from by decide]
      push_cast
      norm_num
  refine ⟨by decide, ?_, ?_⟩ <;> (rw [h7]; decide)

/-- C3 (amended): every animated draw call advances its cursor by exactly
one step modulo the frame count; `spin_simple`, `spin_dots` and also
`spin_arrow` emit `frames[cursor]` independently of the progress argument;
only `bounce` selects its emitted frame as `frames[floor(progress ×
(frameCount − 1))]`. -/
theorem C3_cursor_and_frame_selection (w : ℕ) (so : Bool) (p q : ℚ) (i : ℕ)
    (hp : 0 ≤ p) :
    (bounceStep p i).2 = (i + 1) % bounceFrames.length
    ∧ (spinStep spinArrowFrames w so p i).2 = (i + 1) % spinArrowFrames.length
    ∧ (spinStep spinSimpleFrames w so p i).2 = (i + 1) % spinSimpleFrames.length
    ∧ (spinStep spinDotsFrames w so p i).2 = (i + 1) % spinDotsFrames.length
    ∧ spinStep spinArrowFrames w so p i = spinStep spinArrowFrames w so q i
    ∧ spinStep spinSimpleFrames w so p i = spinStep spinSimpleFrames w so q i
    ∧ spinStep spinDotsFrames w so p i = spinStep spinDotsFrames w so q i
    ∧ (spinStep spinArrowFrames w so p i).1.1
        = (if so then List.replicate (w / 3) (spinArrowFrames.getD (i % spinArrowFrames.length) ' ')
           else [spinArrowFrames.getD (i % spinArrowFrames.length) ' '])
    ∧ (spinStep spinSimpleFrames w so p i).1.1
        = (if so then List.replicate (w / 3) (spinSimpleFrames.getD (i % spinSimpleFrames.length) ' ')
           else [spinSimpleFrames.getD (i % spinSimpleFrames.length) ' '])
    ∧ (spinStep spinDotsFrames w so p i).1.1
        = (if so then List.replicate (w / 3) (spinDotsFrames.getD (i % spinDotsFrames.length) ' ')
           else [spinDotsFrames.getD (i % spinDotsFrames.length) ' '])
    ∧ (bounceStep p i).1.1
        = bounceFrames.getD (⌊p * ((bounceFrames.length : ℚ) - 1)⌋).toNat [] := by
  refine ⟨rfl, rfl, rfl, rfl, rfl, rfl, rfl, rfl, rfl, rfl, ?_⟩
  show (bounceStep p i).1.1 = _
  unfold bounceStep
  simp only [Int.cast_natCast]
  rw [show ((bounceFrames.length : ℚ) - 1) = 8 from by
    rw [show bounceFrames.length = 9 from by decide]; norm_num]
  rw [pyInt_of_nonneg (mul_nonneg hp (by norm_num))]

/-- C3 witness: the amended statement at `width = 30`, plain spinner,
`p = 1/2`, `q = 1/3`, cursor 0. -/
theorem C3_cursor_and_frame_selection_witness :
    (bounceStep (1/2) 0).2 = (0 + 1) % bounceFrames.length
    ∧ (bounceStep (1/2) 0).1.1
        = bounceFrames.getD (⌊(1/2 : ℚ) * ((bounceFrames.length : ℚ) - 1)⌋).toNat [] := by
  have h := C3_cursor_and_frame_selection 30 false (1/2) (1/3) 0 (by norm_num)
  exact ⟨h.1, h.2.2.2.2.2.2.2.2.2.2⟩

/-- C4 counterexample: the `custom` threshold style with the two-character
filled glyph `"ab"` at `width = 2`, `progress = 1` yields segments of
total character length 4, not `width = 2`. -/
theorem C4_custom_wide_glyph :
    (drawerOf (.customPair "ab".toList ['.']) 2 false 1 0).1.1.length
      + (drawerOf (.customPair "ab".toList ['.']) 2 false 1 0).1.2.length = 4
    ∧ (drawerOf (.customPair "ab".toList ['.']) 2 false 1 0).1.1.length
      + (drawerOf (.customPair "ab".toList ['.']) 2 false 1 0).1.2.length ≠ 2 := by
  have h2 : pyInt ((1 : ℚ) * ((2:ℕ) : ℚ)) = 2 := by
    apply pyInt_eq <;> (push_cast; norm_num)
  refine ⟨?_, ?_⟩ <;> (simp only [drawerOf, thresholdDraw]; rw [h2]; decide)

/-- C4 (amended): for the built-in threshold-fill styles (classic, arrow,
equal, dot, hash, star, triangle) the filled and empty segment lengths sum
to the width for every progress in `[0,1]`; for the `custom` style this
additionally requires both supplied glyphs to be single characters (string
repetition multiplies lengths otherwise); the filled segment length is
non-decreasing in progress for every threshold style, custom included. -/
theorem C4_threshold_sum_and_monotone (w : ℕ) (p q : ℚ) (fg eg : Str)
    (h0 : 0 ≤ p) (h1 : p ≤ 1) (hpq : p ≤ q) :
    ((classicDraw w p).1.length + (classicDraw w p).2.length = w)
    ∧ ((arrowDraw w p).1.length + (arrowDraw w p).2.length = w)
    ∧ ((equalDraw w p).1.length + (equalDraw w p).2.length = w)
    ∧ ((dotDraw w p).1.length + (dotDraw w p).2.length = w)
    ∧ ((hashDraw w p).1.length + (hashDraw w p).2.length = w)
    ∧ ((starDraw w p).1.length + (starDraw w p).2.length = w)
    ∧ ((triangleDraw w p).1.length + (triangleDraw w p).2.length = w)
    ∧ (fg.length = 1 → eg.length = 1 →
        (thresholdDraw fg eg w p).1.length + (thresholdDraw fg eg w p).2.length = w)
    ∧ (thresholdDraw fg eg w p).1.length ≤ (thresholdDraw fg eg w q).1.length := by
  have hb := filled_bounds w h0 h1
  have hsum : ∀ a b : Char,
      (thresholdDraw [a] [b] w p).1.length + (thresholdDraw [a] [b] w p).2.length = w := by
    intro a b
    rcases thresholdDraw_lengths [a] [b] w p with ⟨hf, he⟩
    rw [hf, he]
    simp only [List.length_singleton, Nat.mul_one]
    omega
  have hmono : (thresholdDraw fg eg w p).1.length ≤ (thresholdDraw fg eg w q).1.length := by
    rcases thresholdDraw_lengths fg eg w p with ⟨hf1, -⟩
    rcases thresholdDraw_lengths fg eg w q with ⟨hf2, -⟩
    rw [hf1, hf2]
    have hq0 : 0 ≤ q := le_trans h0 hpq
    have hw : (0 : ℚ) ≤ w := by positivity
    have : pyInt (p * w) ≤ pyInt (q * w) := by
      rw [pyInt_of_nonneg (mul_nonneg h0 hw), pyInt_of_nonneg (mul_nonneg hq0 hw)]
      exact Int.floor_le_floor (mul_le_mul_of_nonneg_right hpq hw)
    exact Nat.mul_le_mul_right _ (Int.toNat_le_toNat this)
  refine ⟨hsum _ _, hsum _ _, hsum _ _, hsum _ _, hsum _ _, hsum _ _, hsum _ _, ?_, hmono⟩
  intro hfg heg
  rcases thresholdDraw_lengths fg eg w p with ⟨hf, he⟩
  rw [hf, he, hfg, heg]
  simp only [Nat.mul_one]
  omega

/-- C4 witness: the amended statement at `width = 10`, `p = 1/3`,
`q = 1/2`, custom glyph pair `("@", ".")`. -/
theorem C4_threshold_sum_and_monotone_witness :
    (classicDraw 10 (1/3)).1.length + (classicDraw 10 (1/3)).2.length = 10
    ∧ (thresholdDraw ['@'] ['.'] 10 (1/3)).1.length
        ≤ (thresholdDraw ['@'] ['.'] 10 (1/2)).1.length := by
  have h := C4_threshold_sum_and_monotone 10 (1/3) (1/2) ['@'] ['.']
    (by norm_num) (by norm_num) (by norm_num)
  exact ⟨h.1, h.2.2.2.2.2.2.2.2⟩

/-- C10: when `custom_chars` is supplied, the `style` argument is ignored
entirely — the factory resolves to the threshold-fill `custom` style built
from the supplied pair, for any style argument, including an empty glyph
list (whose emptiness error is therefore never reached), and the resulting
drawer is exactly the threshold fill over the supplied pair. -/
theorem C10_custom_chars_override (style : StyleArg) (fg eg : Str) (w : ℕ)
    (so : Bool) (p : ℚ) (i : ℕ) :
    resolveStyle style (some (fg, eg)) = .ok (.customPair fg eg)
    ∧ drawerOf (.customPair fg eg) w so p i = (thresholdDraw fg eg w p, i)
    ∧ resolveStyle (.list []) (some (fg, eg)) = .ok (.customPair fg eg) := by
  exact ⟨rfl, rfl, rfl⟩

/-- C5: a `draw` call writes exactly the string `"\r" + bar + suffix`,
where the suffix is empty when no metric parts are present and otherwise
`" │ "` followed by the parts joined by two spaces; the written line
itself contains no newline (provided the renderer's segments do not), and
exactly one extra newline follows it precisely when the raw progress —
equivalently its clamped value — reached 1. -/
theorem C5_draw_line_output (cfg : DrawCfg) (f : ℚ → Str × Str) (st : SpeedState)
    (now progress : ℚ) (current : Option ℤ) (eta speed : Option ℚ)
    (hF : ∀ q : ℚ, '\n' ∉ (f q).1 ∧ '\n' ∉ (f q).2) :
    (draw cfg f st now progress current eta speed).1
      = ['\r'] ++ ((f (clampProgress progress)).1 ++ (f (clampProgress progress)).2)
        ++ (if buildParts cfg (clampProgress progress) current eta speed
              (computeSpeed cfg.showSpeed speed current now st).1 = [] then []
            else " │ ".toList ++ joinSep "  ".toList
              (buildParts cfg (clampProgress progress) current eta speed
                (computeSpeed cfg.showSpeed speed current now st).1))
        ++ (if 1 ≤ progress then ['\n'] else [])
    ∧ (1 ≤ clampProgress progress ↔ 1 ≤ progress)
    ∧ '\n' ∉ (['\r'] ++ ((f (clampProgress progress)).1 ++ (f (clampProgress progress)).2)
        ++ (if buildParts cfg (clampProgress progress) current eta speed
              (computeSpeed cfg.showSpeed speed current now st).1 = [] then []
            else " │ ".toList ++ joinSep "  ".toList
              (buildParts cfg (clampProgress progress) current eta speed
                (computeSpeed cfg.showSpeed speed current now st).1))) := by
  refine ⟨?_, one_le_clampProgress progress, ?_⟩
  · have hiff : (1 ≤ clampProgress progress) = (1 ≤ progress) :=
      propext (one_le_clampProgress progress)
    simp only [draw, hiff]
  · intro hmem
    rcases List.mem_append.mp hmem with h12 | h4
    · rcases List.mem_append.mp h12 with h1 | h3
      · simp only [List.mem_singleton] at h1
        exact absurd h1 (by decide)
      · rcases List.mem_append.mp h3 with h5 | h6
        · exact (hF (clampProgress progress)).1 h5
        · exact (hF (clampProgress progress)).2 h6
    · by_cases hp : buildParts cfg (clampProgress progress) current eta speed
          (computeSpeed cfg.showSpeed speed current now st).1 = []
      · rw [if_pos hp] at h4
        simp at h4
      · rw [if_neg hp] at h4
        rcases List.mem_append.mp h4 with h5 | h6
        · exact absurd h5 (by decide)
        · exact joinSep_noNL _ _ (by decide)
            (buildParts_noNL cfg (clampProgress progress) current eta speed
              (computeSpeed cfg.showSpeed speed current now st).1) h6

/-- C5 witness: at `progress = 1/2` with only the percentage enabled and an
empty renderer, the drawn line is exactly the carriage return, the
separator and the percentage part, with no trailing newline. -/
theorem C5_draw_line_output_witness :
    (draw ⟨true, false, false, false⟩ (fun _ => ([], [])) ⟨0, 0⟩ 0 (1/2) none none none).1
      = "\r │ 50.0%".toList := by
  have h := C5_draw_line_output ⟨true, false, false, false⟩ (fun _ => ([], []))
    ⟨0, 0⟩ 0 (1/2) none none none (by simp)
  rw [h.1]
  rw [clampProgress_eq (by norm_num)]
  simp only [buildParts, pctParts, counterParts, etaParts, speedParts, computeSpeed]
  rw [fmtPercent_half]
  rw [if_neg (by norm_num : ¬ (1 : ℚ) ≤ 1/2)]
  decide

/-- C6: with `show_speed` on, an explicit `speed` argument is displayed as
given and leaves the tracker untouched; otherwise a supplied `current`
yields the tracker-based difference quotient exactly when strictly
positive time has elapsed (the tracker then advancing to `(now, current)`,
and staying put otherwise — including on a call at the very same
timestamp); with neither argument no speed is shown; the format bands are
`/s` below 1000, `K/s` below one million and `M/s` beyond; and the
two-call scenario `current = 100` at `t = 0` then `current = 150` at
`t = 1` displays `50.0/s`. -/
theorem C6_speed_resolution (cfg : DrawCfg) (f : ℚ → Str × Str) (st : SpeedState)
    (now p : ℚ) (c : ℤ) (e : Option ℚ) (s : ℚ) (comp : Option ℚ) (q tc : ℚ)
    (hs : cfg.showSpeed = true) (htc : tc < 0) :
    (speedParts true (some s) comp = [fmtSpeed s]
      ∧ (draw cfg f st now p (some c) e (some s)).2 = st)
    ∧ (st.lastUpdate < now →
        computeSpeed true none (some c) now st
          = (some (((c : ℚ) - (st.lastValue : ℚ)) / (now - st.lastUpdate)), ⟨now, c⟩)
        ∧ (draw cfg f st now p (some c) e none).2 = ⟨now, c⟩)
    ∧ (now ≤ st.lastUpdate →
        computeSpeed true none (some c) now st = (none, st)
        ∧ (draw cfg f st now p (some c) e none).2 = st)
    ∧ computeSpeed true none none now st = (none, st)
    ∧ (draw cfg f st now p none e none).2 = st
    ∧ (q < 1000 → fmtSpeed q = oneDecimal q ++ "/s".toList)
    ∧ (1000 ≤ q → q < 1000000 → fmtSpeed q = oneDecimal (q / 1000) ++ "K/s".toList)
    ∧ (1000000 ≤ q → fmtSpeed q = oneDecimal (q / 1000000) ++ "M/s".toList)
    ∧ (draw ⟨false, false, false, true⟩ (fun _ => ([], [])) ⟨tc, 0⟩ 0 (1/2)
        (some 100) none none).2 = ⟨0, 100⟩
    ∧ (draw ⟨false, false, false, true⟩ (fun _ => ([], [])) ⟨0, 100⟩ 1 (3/4)
        (some 150) none none).1 = "\r │ 50.0/s".toList
    ∧ fmtSpeed 50 = "50.0/s".toList := by
  have h4 : computeSpeed true none none now st = (none, st) := by
    unfold computeSpeed
    rw [if_pos ⟨rfl, rfl⟩]
  refine ⟨⟨rfl, by simp [draw, computeSpeed]⟩, ?_, ?_, h4, by simp [draw, hs, h4],
    ?_, ?_, ?_, ?_, ?_, fmtSpeed_50⟩
  · intro h
    have hcs : computeSpeed true none (some c) now st
        = (some (((c : ℚ) - (st.lastValue : ℚ)) / (now - st.lastUpdate)), ⟨now, c⟩) := by
      unfold computeSpeed
      rw [if_pos ⟨rfl, rfl⟩]
      dsimp only
      rw [if_pos h]
    exact ⟨hcs, by simp [draw, hs, hcs]⟩
  · intro h
    have hcs : computeSpeed true none (some c) now st = (none, st) := by
      unfold computeSpeed
      rw [if_pos ⟨rfl, rfl⟩]
      dsimp only
      rw [if_neg (not_lt.mpr h)]
    exact ⟨hcs, by simp [draw, hs, hcs]⟩
  · intro h
    unfold fmtSpeed
    rw [if_pos h]
  · intro h1 h2
    unfold fmtSpeed
    rw [if_neg (not_lt.mpr h1), if_pos h2]
  · intro h1
    unfold fmtSpeed
    rw [if_neg (not_lt.mpr (by linarith)), if_neg (not_lt.mpr h1)]
  · simp only [draw]
    unfold computeSpeed
    rw [if_pos ⟨rfl, rfl⟩]
    dsimp only
    rw [if_pos (show (tc : ℚ) < 0 from htc)]
  · simp only [draw]
    rw [clampProgress_eq (by norm_num)]
    unfold computeSpeed
    rw [if_pos (show DrawCfg.showSpeed ⟨false, false, false, true⟩ = true
      ∧ (none : Option ℚ) = none from ⟨rfl, rfl⟩)]
    dsimp only
    rw [if_pos (show (0 : ℚ) < 1 from by norm_num)]
    norm_num [buildParts, pctParts, counterParts, etaParts, speedParts]
    rw [fmtSpeed_50]
    decide

/-- C6 witness: the scenario and the plain-band formatting at concrete
inputs. -/
theorem C6_speed_resolution_witness :
    fmtSpeed 50 = "50.0/s".toList
    ∧ (draw ⟨false, false, false, true⟩ (fun _ => ([], [])) ⟨0, 100⟩ 1 (3/4)
        (some 150) none none).1 = "\r │ 50.0/s".toList := by
  have h := C6_speed_resolution ⟨false, false, false, true⟩ (fun _ => ([], [])) ⟨0, 0⟩ 1
    (1/2) 5 none 7 none 500 (-1) rfl (by norm_num)
  exact ⟨h.2.2.2.2.2.2.2.2.2.2, h.2.2.2.2.2.2.2.2.2.1⟩

set_option maxRecDepth 8192 in
/-- C7: resolving a style name outside the dispatch chain fails at
construction time with the ValueError whose message names the unknown
value and contains every `ProgressStyle` identifier; an empty custom
glyph list also fails at construction time, through line 85 when the
style argument is a list and through the inner check of line 257 when it
is the string `custom_list`; the renderers the factory does return are
total functions, so none of these errors can arise during a draw call. -/
theorem C7_config_errors (s : Str) (h : toLowerStr s ∉ knownLowerNames) :
    resolveStyle (.name s) none = .error (unknownStyleMsg s)
    ∧ s <:+: unknownStyleMsg s
    ∧ (∀ id ∈ knownIdents, id <:+: unknownStyleMsg s)
    ∧ resolveStyle (.list []) none
        = .error "Character list must have at least one character".toList
    ∧ resolveStyle (.name "custom_list".toList) none
        = .error "Character list cannot be empty".toList := by
  have hmem := h
  simp only [knownLowerNames, List.mem_cons, List.mem_singleton, not_or] at hmem
  obtain ⟨h1, h2, h3, h4, h5, h6, h7, h8, h9, h10, h11, h12, h13, h14, h15, h16, h17,
    h18, h19, -⟩ := hmem
  refine ⟨?_, ?_, ?_, rfl, rfl⟩
  · simp only [resolveStyle]
    rw [if_neg h1, if_neg h2, if_neg h3, if_neg h4, if_neg h5, if_neg h6, if_neg h7,
      if_neg h8, if_neg h9, if_neg h10, if_neg h11, if_neg h12, if_neg h13, if_neg h14,
      if_neg h15, if_neg (not_or.mpr ⟨h16, h17⟩), if_neg h18, if_neg h19]
  · refine ⟨"Unknown style: ".toList ++ [Char.ofNat 39],
      [Char.ofNat 39] ++ ". Available: ".toList ++ joinSep ", ".toList knownIdents, ?_⟩
    simp [unknownStyleMsg, pyRepr]
  · intro id hid
    have hj : id <:+: joinSep ", ".toList knownIdents := by
      fin_cases hid <;> decide
    obtain ⟨u, v, huv⟩ := hj
    refine ⟨"Unknown style: ".toList ++ pyRepr s ++ ". Available: ".toList ++ u, v, ?_⟩
    rw [show "Unknown style: ".toList ++ pyRepr s ++ ". Available: ".toList ++ u ++ id ++ v
        = "Unknown style: ".toList ++ pyRepr s ++ ". Available: ".toList ++ (u ++ id ++ v)
      from by simp [List.append_assoc]]
    rw [huv]
    simp [unknownStyleMsg, List.append_assoc]

/-- C7 witness: the style name `nonexistent` is rejected with the
unknown-style message. -/
theorem C7_config_errors_witness :
    resolveStyle (.name "nonexistent".toList) none
      = .error (unknownStyleMsg "nonexistent".toList) :=
  (C7_config_errors "nonexistent".toList (by decide)).1

/-- C8 counterexample: a successful update at full progress writes
`count + 1` newlines, not `count`: the completed row's drawer appends its
own completion newline.  `MultiProgress(3)` with the default block style
at `update(0, 1.0)` writes 4 newlines, where the claim says exactly 3. -/
theorem C8_full_progress_extra_line :
    ((multiUpdate 3 (blockDraw 30) 0 0 1 []).map (fun r => countNewlines r.1)).toOption
      = some 4
    ∧ ((multiUpdate 3 (blockDraw 30) 0 0 1 []).map (fun r => countNewlines r.1)).toOption
      ≠ some 3 := by
  have hb : pyInt ((1 : ℚ) * ((((30:ℕ) : ℤ) * (blockChars.length : ℤ) - 1 : ℤ) : ℚ)) = 209 := by
    apply pyInt_eq <;>
    · rw [show (((30:ℕ) : ℤ) * (blockChars.length : ℤ) - 1 : ℤ) = 209 from by decide]
      push_cast
      norm_num
  have hclamp : clampProgress 1 = 1 := clampProgress_eq (by norm_num)
  constructor <;>
  · simp only [multiUpdate, draw, blockDraw, hclamp]
    rw [hb, if_pos (le_refl (1 : ℚ))]
    decide

/-- C8 (amended): `update` raises the range error exactly when the index
is outside `[0, count)`; a successful update writes exactly `count`
newlines when the progress is below 1 (as in the claim's example
`update(0, 0.5)` with three bars), and `count + 1` newlines when the
clamped progress reaches 1, because the updated row's drawer then appends
its own completion newline. -/
theorem C8_update_range_and_line_count (count : ℕ) (f : ℚ → Str × Str) (lw : ℕ)
    (idx : ℤ) (p : ℚ) (label : Str)
    (hF : ∀ r : ℚ, '\n' ∉ (f r).1 ∧ '\n' ∉ (f r).2) (hlabel : '\n' ∉ label) :
    (idx < 0 ∨ (count : ℤ) ≤ idx →
      multiUpdate count f lw idx p label
        = .error ("Index ".toList ++ intDigits idx ++ " out of range (0-".toList
            ++ intDigits ((count : ℤ) - 1) ++ [')']))
    ∧ (0 ≤ idx → idx < (count : ℤ) →
        (multiUpdate count f lw idx p label).map (fun r => countNewlines r.1)
          = .ok (count + (if 1 ≤ p then 1 else 0))) := by
  constructor
  · intro h
    unfold multiUpdate
    rw [if_pos h]
  · intro h0 hc
    unfold multiUpdate
    rw [if_neg (by omega)]
    simp only [Except.map]
    congr 1
    unfold countNewlines
    rw [List.count_append]
    have hheader : List.count '\n' (if lw ≠ 0 then cursorUp lw else []) = 0 := by
      split
      · exact count_nl_zero (cursorUp_noNL lw)
      · rfl
    rw [hheader, List.count_flatten, List.map_map]
    have hrow : ∀ i ∈ List.range count,
        ((fun l => List.count '\n' l) ∘ (fun (i : ℕ) =>
          if (i : ℤ) = idx then
            (if label ≠ [] then label ++ ": ".toList
             else "Bar ".toList ++ natDigits (i + 1) ++ ": ".toList)
              ++ (draw mpCfg f ⟨0, 0⟩ 0 p none none none).1 ++ ['\n']
          else ['\n'])) i
        = if i = idx.toNat then 1 + (if 1 ≤ p then 1 else 0) else 1 := by
      intro i _
      simp only [Function.comp_apply]
      by_cases hij : (i : ℤ) = idx
      · rw [if_pos hij, if_pos (show i = idx.toNat from by rw [← hij, Int.toNat_ofNat])]
        rw [List.count_append, List.count_append]
        have hpre : List.count '\n' (if label ≠ [] then label ++ ": ".toList
            else "Bar ".toList ++ natDigits (i + 1) ++ ": ".toList) = 0 := by
          split
          · rw [List.count_append, count_nl_zero hlabel,
              count_nl_zero (by decide : '\n' ∉ ": ".toList)]
          · rw [List.count_append, List.count_append,
              count_nl_zero (by decide : '\n' ∉ "Bar ".toList),
              count_nl_zero (natDigits_noNL (i + 1)),
              count_nl_zero (by decide : '\n' ∉ ": ".toList)]
        have hparts : buildParts mpCfg (clampProgress p) none none none
            (computeSpeed mpCfg.showSpeed none none 0 (⟨0, 0⟩ : SpeedState)).1 = [] := rfl
        have hdraw : List.count '\n' ((draw mpCfg f ⟨0, 0⟩ 0 p none none none).1)
            = (if 1 ≤ p then 1 else 0) := by
          simp only [draw]
          rw [hparts, if_pos rfl]
          rw [List.count_append, List.count_append, List.count_append]
          rw [count_nl_zero (by decide : '\n' ∉ ['\r']),
            count_nl_zero (show '\n' ∉ (f (clampProgress p)).1 ++ (f (clampProgress p)).2 from
              fun hm => (List.mem_append.mp hm).elim (hF _).1 (hF _).2),
            List.count_nil]
          by_cases h1p : 1 ≤ p
          · rw [if_pos ((one_le_clampProgress p).mpr h1p), if_pos h1p]
            decide
          · rw [if_neg (fun hcl => h1p ((one_le_clampProgress p).mp hcl)), if_neg h1p]
            decide
        rw [hpre, hdraw]
        rw [show List.count '\n' ['\n'] = 1 from by decide]
        omega
      · rw [if_neg hij, if_neg (show ¬ i = idx.toNat from
          fun h => hij (by rw [h, Int.toNat_of_nonneg h0]))]
        decide
    rw [List.map_congr_left hrow,
      sum_range_ite count idx.toNat (if 1 ≤ p then 1 else 0) (by
        rw [← Int.toNat_of_nonneg h0] at hc
        exact_mod_cast hc)]
    rw [Nat.zero_add]

/-- C8 witness: the claim's own example, `update(0, 0.5)` on three bars,
writes exactly three newlines, and `update(5, ...)` is out of range. -/
theorem C8_update_range_and_line_count_witness :
    (multiUpdate 3 (fun _ => ([], [])) 0 0 (1/2) []).map (fun r => countNewlines r.1)
      = .ok 3 := by
  have h := C8_update_range_and_line_count 3 (fun _ => ([], [])) 0 0 (1/2) []
    (by simp) (by simp)
  rw [h.2 (by norm_num) (by norm_num), if_neg (by norm_num : ¬ (1 : ℚ) ≤ 1/2)]

/-- C9: with `show_eta` on and an `eta` argument supplied, the ETA part
appears exactly when `eta > 0`; the format band is seconds below 60,
minutes from 60 up to (and including) 3599.9, and hours from 3600 on, with
the claim's boundary values evaluated exactly; the suffix of a draw call
showing only the ETA is `" │ ETA 59.9s"`. -/
theorem C9_eta_parts_and_bands (v : ℚ) :
    (0 < v → etaParts true (some v) = [fmtEta v])
    ∧ (v ≤ 0 → etaParts true (some v) = [])
    ∧ (v < 60 → fmtEta v = "ETA ".toList ++ oneDecimal v ++ ['s'])
    ∧ (60 ≤ v → v < 3600 → fmtEta v = "ETA ".toList ++ oneDecimal (v / 60) ++ ['m'])
    ∧ (3600 ≤ v → fmtEta v = "ETA ".toList ++ oneDecimal (v / 3600) ++ ['h'])
    ∧ fmtEta (599/10) = "ETA 59.9s".toList
    ∧ fmtEta 60 = "ETA 1.0m".toList
    ∧ fmtEta (35999/10) = "ETA 60.0m".toList
    ∧ fmtEta 3600 = "ETA 1.0h".toList
    ∧ (draw ⟨false, false, true, false⟩ (fun _ => ([], [])) ⟨0, 0⟩ 0 (1/2) none
        (some (599/10)) none).1 = "\r │ ETA 59.9s".toList := by
  refine ⟨?_, ?_, ?_, ?_, ?_, fmtEta_below_minute, fmtEta_minute, fmtEta_last_minute,
    fmtEta_hour, ?_⟩
  · intro h
    unfold etaParts
    dsimp only
    rw [if_pos h]
  · intro h
    unfold etaParts
    dsimp only
    rw [if_neg (not_lt.mpr h)]
  · intro h
    unfold fmtEta
    rw [if_pos h]
  · intro h1 h2
    unfold fmtEta
    rw [if_neg (not_lt.mpr h1), if_pos h2]
  · intro h
    unfold fmtEta
    rw [if_neg (not_lt.mpr (by linarith)), if_neg (not_lt.mpr h)]
  · simp only [draw]
    rw [clampProgress_eq (by norm_num)]
    simp only [buildParts, pctParts, counterParts, etaParts, speedParts, computeSpeed]
    rw [if_pos (by norm_num : (0 : ℚ) < 599/10), fmtEta_below_minute,
      if_neg (by norm_num : ¬ (1 : ℚ) ≤ 1/2)]
    decide

/-- C9 witness: at `eta = 1` the ETA part is present. -/
theorem C9_eta_parts_and_bands_witness :
    etaParts true (some 1) = [fmtEta 1] :=
  (C9_eta_parts_and_bands 1).1 (by norm_num)

end Progressor
